import Mathlib

/-!
Verification development for the `data_processing_toolkit` repository.

The definitions below are a shallow embedding of the Python sources:
`src/collater.py`, `src/constants.py`, `src/file_handler.py` and
`src/src/data_processing_toolkit/excel_formulas.py` /
`src/src/data_processing_toolkit/collater.py`.  External library calls
(xlsxwriter address helpers, openpyxl cell access, Python builtins such as
`float`, `str.split`, `str.strip`, `~` on booleans) are embedded from their
documented, well-known semantics; each such definition says so in its doc
comment.  Python exceptions are represented by an explicit result type, and
machine-independent integers by `Nat`/`Int` (the Python code only ever uses
small non-negative indices and arbitrary-precision `int`).
-/

namespace Toolkit

/-- The apostrophe character (code point 39), used by the Excel sheet-name
quoting in `convert_to_excel_address` and by Python `strip("'")`. -/
def apos : Char := Char.ofNat 39

/-- Model of a Python exception escaping a call. -/
inductive PyErr where
  /-- `AttributeError`: attribute lookup on an object failed. -/
  | attributeError
  /-- an invalid-coordinate error raised by openpyxl cell access
  (for example `worksheet["A0"]`). -/
  | invalidCoordinate
deriving DecidableEq, Repr

/-- Result of running a piece of Python code: either a value, or an
exception propagating out. -/
inductive PyResult (α : Type) where
  | ok (v : α)
  | raised (e : PyErr)
deriving DecidableEq, Repr

/-- Model of Python `str.split(sep)` for a one-character separator:
splits the character list at every occurrence of `sep`.  Like Python,
the result is never empty and has one more piece than separators. -/
def splitChar (sep : Char) : List Char → List (List Char)
  | [] => [[]]
  | c :: cs =>
    match splitChar sep cs with
    | [] => [[]]
    | h :: t => if c = sep then [] :: h :: t else (c :: h) :: t

/-- Model of Python `str.strip(x)` for a one-character argument: removes
every leading and trailing occurrence of `x`. -/
def pyStripChar (x : Char) (l : List Char) : List Char :=
  ((l.dropWhile (fun c => c = x)).reverse.dropWhile (fun c => c = x)).reverse

/-- Model of the Python membership test `ch in s` for a single character. -/
def pyHasChar (ch : Char) (l : List Char) : Bool :=
  l.any (fun c => c = ch)

/-- Substring test over character lists (Python `pat in s`): some tail of
`l` starts with `pat`. -/
def hasRun (pat l : List Char) : Bool :=
  l.tails.any (fun t => pat.isPrefixOf t)

/-! ## xlsxwriter address helpers (external library, embedded from its
well-known source: `xlsxwriter.utility`). -/

/-- Column letters of the 1-based column number `n`, bijective base 26,
embedding the accumulation loop of `xlsxwriter.utility.xl_col_to_name`
(the source decrements before dividing, so `n = m + 1` yields letter
`chr(ord("A") + m % 26)` appended to the letters of `(m) / 26`).  Written
with a fuel argument so that it reduces inside the kernel; `colChars`
below instantiates the fuel. -/
def colCharsAux : Nat → Nat → List Char
  | _, 0 => []
  | 0, _ + 1 => []
  | fuel + 1, n + 1 => colCharsAux fuel (n / 26) ++ [Char.ofNat (65 + n % 26)]

/-- Column letters of the 1-based column number `n` (so the 0-based column
`c` of the Python API is rendered as `colChars (c + 1)`). -/
def colChars (n : Nat) : List Char := colCharsAux n n

/-- Decimal digits of `n` (empty for 0), embedding Python `str(n)` for the
positive row numbers produced by `xl_rowcol_to_cell`.  Fuel-indexed like
`colCharsAux`. -/
def decCharsAux : Nat → Nat → List Char
  | _, 0 => []
  | 0, _ + 1 => []
  | fuel + 1, n + 1 => decCharsAux fuel ((n + 1) / 10) ++ [Char.ofNat (48 + (n + 1) % 10)]

/-- Decimal digit characters of `n` (empty list for `n = 0`; the code only
renders `row + 1 ≥ 1`). -/
def decChars (n : Nat) : List Char := decCharsAux n n

/-- Numeric value of a letter run, embedding the `reversed(col_str)` loop of
`xlsxwriter.utility.xl_cell_to_rowcol`: each letter contributes
`ord(char) - ord("A") + 1` at its base-26 place. -/
def colVal (l : List Char) : Nat :=
  l.foldl (fun a c => a * 26 + (c.toNat - 64)) 0

/-- Numeric value of a decimal digit run, embedding Python `int(row_str)`. -/
def digitsVal (l : List Char) : Nat :=
  l.foldl (fun a c => a * 10 + (c.toNat - 48)) 0

/-- Embedding of `xlsxwriter.utility.xl_rowcol_to_cell(row, col)` with the
default `row_abs = col_abs = False` (the only form the claims exercise):
column letters of `col + 1` followed by the decimal digits of `row + 1`. -/
def xl_rowcol_to_cellChars (row col : Nat) : List Char :=
  colChars (col + 1) ++ decChars (row + 1)

/-- String form of `xl_rowcol_to_cell`. -/
def xl_rowcol_to_cell (row col : Nat) : String :=
  String.mk (xl_rowcol_to_cellChars row col)

/-- Embedding of `xlsxwriter.utility.xl_cell_to_rowcol`.  The library
matches the regex `(\$?)([A-Z]\x7b1,3\x7d)(\$?)(\d+)` at the start of the
string and raises `AttributeError` on a failed match (`match.group` on
`None`); a failed match is `Option.none` here.  An empty string returns
`(0, 0)` as in the source.  Row and column come back 0-based, as `Int`
because the source subtracts 1 from the parsed values. -/
def xl_cell_to_rowcol (cell_str : String) : Option (Int × Int) :=
  if cell_str.data = [] then some (0, 0)
  else
    let l := if cell_str.data.head? = some (Char.ofNat 36) then cell_str.data.tail
             else cell_str.data
    let letters := l.takeWhile Char.isUpper
    let rest := l.dropWhile Char.isUpper
    if letters.length = 0 ∨ 3 < letters.length then none
    else
      let rest := if rest.head? = some (Char.ofNat 36) then rest.tail else rest
      let digits := rest.takeWhile Char.isDigit
      if digits.length = 0 then none
      else some ((digitsVal digits : Int) - 1, (colVal letters : Int) - 1)

/-! ## Constants from `constants.py`. -/

/-- Embeds `constants.AVERAGE_LABEL`. -/
def AVERAGE_LABEL : String := "Average"

/-- Embeds `constants.STD_LABEL`. -/
def STD_LABEL : String := "STD"

/-- Embeds `constants.ERROR_VALUE_FOR_INPUT`, the sentinel written for
unreadable cells. -/
def ERROR_VALUE_FOR_INPUT : String := "NA()"

/-- Embeds `constants.EXCEL_ERROR_VALUES`, in source order:
NAN_FROM_EXCEL, ALT_NAN_FROM_EXCEL, ERROR_FROM_EXCEL, REF_VALUE_FROM_EXCEL,
ERROR_VALUE_FOR_INPUT, DIV0_EXCEL_ERROR. -/
def EXCEL_ERROR_VALUES : List String :=
  ["#N/A", "=NA()", "#VALUE!", "#REF!", ERROR_VALUE_FOR_INPUT, "#DIV/0!"]

/-- Embeds the module-level `TARGET_HEADERS` list of `collater.py`. -/
def TARGET_HEADERS : List String := [AVERAGE_LABEL, STD_LABEL]

/-! ## Cell values and worksheets. -/

/-- Value held in a spreadsheet cell as openpyxl reports it: Python `None`
(empty cell), a number, or a string.  Numbers are embedded as `Rat`; the
code only moves them around, so their exact machine representation is not
claim-relevant. -/
inductive CellValue where
  | none
  | num (x : Rat)
  | str (s : String)
deriving DecidableEq, Repr

/-- An openpyxl worksheet: its `max_row` and `max_column` properties and a
total cell map (openpyxl materializes empty cells as value `None`). -/
structure Worksheet where
  maxRow : Nat
  maxColumn : Nat
  cells : Nat → Nat → CellValue

/-! ## `excel_formulas.py`. -/

/-- Embeds `excel_formulas.convert_to_excel_address` for the forms the
claims exercise: `file_path = ""` and default `fixed_row`/`fixed_column`
(the `file_path` branch and the `$` markers are never produced on the
claims' paths).  With a sheet name the result is `'sheet'!cell`
(apostrophe-quoted, then `!`, then the `xl_rowcol_to_cell` token);
without one it is the bare cell token. -/
def convert_to_excel_address (row_no col_no : Nat) (sheet_name : String) : String :=
  let cell_address := xl_rowcol_to_cell row_no col_no
  if sheet_name = "" then cell_address
  else String.mk (apos :: sheet_name.data ++ [apos, Char.ofNat 33] ++ cell_address.data)

/-- Embeds `excel_formulas.convert_from_excel_cell_address`.  When the
address contains `!` (character 33), the text before the first `!` with
apostrophes stripped is the sheet name and the piece between the first and
second `!` is the cell token (Python `split("!")[1]`); otherwise the sheet
name is empty.  A cell token the xlsxwriter regex rejects raises
`AttributeError` in Python, embedded as `Option.none`. -/
def convert_from_excel_cell_address (cell_address : String) : Option (String × Int × Int) :=
  if pyHasChar (Char.ofNat 33) cell_address.data then
    let parts := splitChar (Char.ofNat 33) cell_address.data
    let sheet_name := String.mk (pyStripChar apos (parts.headD []))
    let address := String.mk ((parts.drop 1).headD [])
    match xl_cell_to_rowcol address with
    | Option.none => Option.none
    | some (r, c) => some (sheet_name, r, c)
  else
    match xl_cell_to_rowcol cell_address with
    | Option.none => Option.none
    | some (r, c) => some ("", r, c)

/-- Embeds `excel_formulas.error_guard_formula`: strip every leading `=`
(Python `lstrip("=")`), then wrap in `IFERROR` with `NA()` or the given
default as the fallback. -/
def error_guard_formula (formula : String) (default : Option String) : String :=
  let f := formula.data.dropWhile (fun c => c == Char.ofNat 61)
  match default with
  | Option.none => String.mk ("=IFERROR(".data ++ f ++ ", NA())".data)
  | some d => String.mk ("=IFERROR(".data ++ f ++ ", ".data ++ d.data ++ ")".data)

/-- Model of the Python builtin `float` applied to a string (external).
Simplified grammar: optional minus sign, then digits with an optional
fractional part.  The claims depend only on coercion being able to fail
(whereupon `get_cell_value` catches the `ValueError`), never on the exact
accepted grammar. -/
def pyFloatOfString (s : String) : Option Rat :=
  let l := s.data
  let sign : Rat := if l.head? = some (Char.ofNat 45) then -1 else 1
  let l := if l.head? = some (Char.ofNat 45) then l.tail else l
  let ip := l.takeWhile Char.isDigit
  let rest := l.dropWhile Char.isDigit
  match rest with
  | [] => if ip = [] then Option.none else some (sign * (digitsVal ip : Rat))
  | dot :: fp =>
    if dot = Char.ofNat 46 ∧ fp.takeWhile Char.isDigit = fp ∧ fp ≠ [] then
      some (sign * ((digitsVal ip : Rat) + (digitsVal fp : Rat) / (10 ^ fp.length)))
    else Option.none

/-- Model of the Python builtin `float` on a cell value: numbers pass
through, strings are parsed, `float(None)` raises `TypeError`
(`Option.none` here, caught by the bare `except`). -/
def pyFloat : CellValue → Option Rat
  | CellValue.num x => some x
  | CellValue.str s => pyFloatOfString s
  | CellValue.none => Option.none

/-- Model of the Python builtin `str` on a cell value (external).  The
rendering of numbers is not claim-relevant (every claim path returns before
or independently of it); `str` never raises. -/
def pyStr : CellValue → String
  | CellValue.num x => toString x
  | CellValue.str s => s
  | CellValue.none => "None"

/-- The Python test `cell_data in constants.EXCEL_ERROR_VALUES`: list
membership by equality, which only a string value can satisfy. -/
def isExcelError : CellValue → Bool
  | CellValue.str s => EXCEL_ERROR_VALUES.contains s
  | _ => false

/-- The `try` block of `excel_formulas.get_cell_value`: return
`float(cell_data)` (resp. `str(cell_data)`) unless the value is an Excel
error marker, in which case return the default; any coercion failure is
caught by the bare `except` and also yields the default. -/
def coerceCell (cell_data : CellValue) (is_number : Bool) (default_value : CellValue) : CellValue :=
  if is_number then
    if isExcelError cell_data then default_value
    else
      match pyFloat cell_data with
      | some x => CellValue.num x
      | Option.none => default_value
  else
    if isExcelError cell_data then default_value
    else CellValue.str (pyStr cell_data)

/-- Model of `worksheet[convert_to_excel_address(row_no, col_no)].value`
(openpyxl, external): the lookup succeeds only when the generated token is
a coordinate openpyxl accepts — a positive row and at most three column
letters (its coordinate pattern takes 1-3 letters and `get_column_letter`
covers columns A..ZZZ, 0-based `col_no ≤ 18277`).  A negative `row_no` or
`col_no` produces a token such as `A0` that the coordinate parser rejects,
and `col_no ≥ 18278` produces a four-letter token (`AAAA1` and up) that
openpyxl likewise rejects; both raise.  Inside the accepted region the
lookup yields the cell's value. -/
def worksheetLookupValue (worksheet : Worksheet) (row_no col_no : Int) : PyResult CellValue :=
  if 0 ≤ row_no ∧ 0 ≤ col_no ∧ col_no ≤ 18277 then
    PyResult.ok (worksheet.cells row_no.toNat col_no.toNat)
  else PyResult.raised PyErr.invalidCoordinate

/-- Embeds `excel_formulas.get_cell_value`.  The cell lookup happens
before the `try` block, so a lookup failure propagates; only the coercion
inside the `try` block falls back to `default_value`. -/
def get_cell_value (worksheet : Worksheet) (row_no col_no : Int) (is_number : Bool)
    (default_value : CellValue) : PyResult CellValue :=
  match worksheetLookupValue worksheet row_no col_no with
  | PyResult.raised e => PyResult.raised e
  | PyResult.ok cell_data => PyResult.ok (coerceCell cell_data is_number default_value)

/-! ## `file_handler.py`. -/

/-- Path-separator test used by `get_filename`
(`("\\" in file_path) or ("/" in file_path)`). -/
def isPathSep (c : Char) : Bool := c == Char.ofNat 47 || c == Char.ofNat 92

/-- Embeds `file_handler.get_filename`: when the path contains a separator,
keep only the base name (`os.path.split(file_path)[1]`, embedded from
ntpath semantics as the text after the last separator), then return
`file_path.split(".")[0]`, the text before the first dot. -/
def get_filename (file_path : String) : String :=
  let p := if file_path.data.any isPathSep then
             (file_path.data.reverse.takeWhile (fun c => !isPathSep c)).reverse
           else file_path.data
  String.mk ((splitChar (Char.ofNat 46) p).headD [])

/-! ## `collater.py`. -/

/-- Destination column for a (file, header) pair: the source expression
`file_index + (REL_SPACE_BETWEEN_TARGETS * header_index)` of
`collater.py`, with `REL_SPACE_BETWEEN_TARGETS = n_files + 2`. -/
def offset (file_index header_index n_files : Nat) : Nat :=
  file_index + ((n_files + 2) * header_index)

/-- One assignment `pt_analysis_sheet[address] = content`, with the address
already resolved to 0-based (row, column). -/
structure PtWrite where
  row : Nat
  col : Nat
  content : String
deriving DecidableEq, Repr

/-- Label text `"sheet_title (target_header)"` written by
`insert_point_analysis_formula`. -/
def ptLabel (sheet_title target_header : String) : String :=
  sheet_title ++ " (" ++ target_header ++ ")"

/-- The INDIRECT formula text emitted by `insert_point_analysis_formula`
for one target header, exactly as the f-string builds it:
`=INDIRECT(ADDRESS(point_address+1, file_index + stride * header_idx + 1,,,"sheet_title"))`
with `point_address = convert_to_excel_address(0, 1 + file_index)`. -/
def indirectFormula (file_index space_between_targets header_idx : Nat)
    (sheet_title : String) : String :=
  String.mk ("=INDIRECT(ADDRESS(".data
    ++ (convert_to_excel_address 0 (1 + file_index) "").data
    ++ "+1, ".data
    ++ decChars (file_index + space_between_targets * header_idx + 1)
    ++ ",,,".data ++ [Char.ofNat 34] ++ sheet_title.data ++ [Char.ofNat 34] ++ "))".data)

/-- Embeds `collater.insert_point_analysis_formula` as the ordered list of
cell assignments it performs: for each target header (with its index), a
label cell at row `sheet_index`, column `space_between_targets * header_idx`,
then a formula cell at row `sheet_index`, column `1 + file_index`.  The
formula-cell coordinates do not depend on `header_idx`. -/
def insert_point_analysis_formula (sheet_index file_index space_between_targets : Nat)
    (sheet_title : String) (target_headers : List String) : List PtWrite :=
  (target_headers.enum.map (fun p =>
    [(⟨sheet_index, space_between_targets * p.1, ptLabel sheet_title p.2⟩ : PtWrite),
     ⟨sheet_index, 1 + file_index,
       indirectFormula file_index space_between_targets p.1 sheet_title⟩])).flatten

/-- State of the point-analysis sheet after a list of assignments, applied
in order (later writes overwrite earlier ones at the same coordinates). -/
def applyPtWrites (ws : List PtWrite) : Nat → Nat → Option String :=
  ws.foldl
    (fun acc w => fun r c => if r = w.row ∧ c = w.col then some w.content else acc r c)
    (fun _ _ => Option.none)

/-- Model of Python `~` on a `bool` (external semantics): `bool` is an
`int` subclass, so `~False == -1` and `~True == -2`. -/
def pyInvert (b : Bool) : Int := if b then -2 else -1

/-- The header-match test `header_cell_value in target_headers_set`: only a
string cell can be a member of a set of strings. -/
def cellIsTarget (target_headers : List String) : CellValue → Bool
  | CellValue.str s => target_headers.contains s
  | _ => false

/-- Embeds the per-sheet column loop of `collater.py` (lines 154-175),
counting how many times `insert_point_analysis_formula` is called for one
(file, sheet) pair.  The flag starts `False`; on a header match the code
branches on the truthiness of `~CONTAINS_A_TARGET_COLUMN` (nonzero int),
sets the flag and calls the emitter.  The loop runs over the sheet's
column count (the intended `sheet.max_column`; the attribute slip on that
read is settled separately by `scanColCount`). -/
def scanEmissionCount (target_headers : List String) (sheet : Worksheet) : Nat :=
  ((List.range sheet.maxColumn).foldl
    (fun st col =>
      if cellIsTarget target_headers (sheet.cells 0 col) then
        if pyInvert st.1 ≠ 0 then (true, st.2 + 1) else st
      else st)
    ((false, 0) : Bool × Nat)).2

/-- Follows the spec's words (section 4.5 step 3 and the code's own
comment): emit the point-analysis row only if this has not been done
before for this (file, sheet) pair, i.e. branch on the plain boolean. -/
def scanEmissionCountSpec (target_headers : List String) (sheet : Worksheet) : Nat :=
  ((List.range sheet.maxColumn).foldl
    (fun st col =>
      if cellIsTarget target_headers (sheet.cells 0 col) then
        if st.1 = false then (true, st.2 + 1) else st
      else st)
    ((false, 0) : Bool × Nat)).2

/-- One assignment `dst_sheet[address] = content` in the destination
workbook, with the address resolved to 0-based (row, column). -/
structure DstWrite where
  row : Nat
  col : Nat
  content : CellValue
deriving DecidableEq, Repr

/-- Embeds the per-matched-column body of the collater transfer loop
(`collater.py` lines 177-202): when the row-0 header cell of `col` is a
target header, write the header text
`"excel_filename (header_cell_value)"` at row 0 of the offset column, then
for each row 1..max_row write the value obtained through cell-value
extraction with the `ERROR_VALUE_FOR_INPUT` sentinel as default.  The
written value is the `try`-block result `coerceCell`; `get_cell_value`
agrees with it at these in-range coordinates (see
`get_cell_value_in_range`). -/
def columnWrites (target_headers : List String) (excel_filename : String)
    (file_index n_files : Nat) (sheet : Worksheet) (col : Nat) : List DstWrite :=
  match sheet.cells 0 col with
  | CellValue.str header_cell_value =>
    if target_headers.contains header_cell_value then
      let header_index := target_headers.indexOf header_cell_value
      (⟨0, offset file_index header_index n_files,
        CellValue.str (excel_filename ++ " (" ++ header_cell_value ++ ")")⟩ : DstWrite) ::
      (List.range sheet.maxRow).map (fun i =>
        ⟨i + 1, offset file_index header_index n_files,
          coerceCell (sheet.cells (i + 1) col) true (CellValue.str ERROR_VALUE_FOR_INPUT)⟩)
    else []
  | _ => []

/-- Attribute lookup on an openpyxl worksheet (external semantics): the
`Worksheet` class defines `max_row` and `max_column`; any other attribute
name raises `AttributeError`. -/
def worksheetGetattr (sheet : Worksheet) (attr_name : String) : PyResult Nat :=
  if attr_name = "max_row" then PyResult.ok sheet.maxRow
  else if attr_name = "max_column" then PyResult.ok sheet.maxColumn
  else PyResult.raised PyErr.attributeError

/-- Embeds `col_count = sheet.max_colum` (`collater.py` line 152 and the
package copy line 170): the attribute read the scan performs before its
column loop, with the source's spelling. -/
def scanColCount (sheet : Worksheet) : PyResult Nat :=
  worksheetGetattr sheet "max_colum"

/-! ## Concrete fixtures used by counterexamples and witnesses. -/

/-- A 1 x 1 worksheet of empty cells. -/
def wsEmpty : Worksheet := ⟨1, 1, fun _ _ => CellValue.none⟩

/-- A worksheet whose data cell (1,0) holds the division-by-zero marker. -/
def wsDiv0 : Worksheet :=
  ⟨1, 1, fun r c => if r = 1 ∧ c = 0 then CellValue.str "#DIV/0!" else CellValue.none⟩

/-- A worksheet whose header row matches a target header in five distinct
columns. -/
def wsFive : Worksheet :=
  ⟨1, 5, fun r _ => if r = 0 then CellValue.str "Average" else CellValue.none⟩

/-- A 1-column worksheet with header "Average" and numeric data. -/
def wsAvg : Worksheet :=
  ⟨1, 1, fun r _ => if r = 0 then CellValue.str "Average" else CellValue.num 3⟩

/-! ## Lemmas about the address helpers. -/

theorem colCharsAux_congr (n : Nat) :
    ∀ f1 f2, n ≤ f1 → n ≤ f2 → colCharsAux f1 n = colCharsAux f2 n := by
  induction n using Nat.strong_induction_on with
  | _ n ih =>
    match n with
    | 0 => intro f1 f2 _ _; cases f1 <;> cases f2 <;> rfl
    | m + 1 =>
      intro f1 f2 h1 h2
      match f1, f2 with
      | g1 + 1, g2 + 1 =>
        simp only [colCharsAux]
        rw [ih (m / 26) (Nat.lt_succ_of_le (Nat.div_le_self m 26)) g1 g2
              (le_trans (Nat.div_le_self m 26) (by omega))
              (le_trans (Nat.div_le_self m 26) (by omega))]

theorem colChars_succ (n : Nat) :
    colChars (n + 1) = colChars (n / 26) ++ [Char.ofNat (65 + n % 26)] := by
  show colCharsAux (n + 1) (n + 1) = _
  simp only [colCharsAux]
  rw [colCharsAux_congr (n / 26) n (n / 26) (Nat.div_le_self n 26) (le_refl _)]
  rfl

theorem decCharsAux_congr (n : Nat) :
    ∀ f1 f2, n ≤ f1 → n ≤ f2 → decCharsAux f1 n = decCharsAux f2 n := by
  induction n using Nat.strong_induction_on with
  | _ n ih =>
    match n with
    | 0 => intro f1 f2 _ _; cases f1 <;> cases f2 <;> rfl
    | m + 1 =>
      intro f1 f2 h1 h2
      match f1, f2 with
      | g1 + 1, g2 + 1 =>
        simp only [decCharsAux]
        rw [ih ((m + 1) / 10) (by omega) g1 g2 (by omega) (by omega)]

theorem decChars_succ (n : Nat) :
    decChars (n + 1) = decChars ((n + 1) / 10) ++ [Char.ofNat (48 + (n + 1) % 10)] := by
  show decCharsAux (n + 1) (n + 1) = _
  simp only [decCharsAux]
  rw [decCharsAux_congr ((n + 1) / 10) n ((n + 1) / 10) (by omega) (le_refl _)]
  rfl

theorem colVal_append_singleton (l : List Char) (c : Char) :
    colVal (l ++ [c]) = colVal l * 26 + (c.toNat - 64) := by
  simp [colVal, List.foldl_append]

theorem char_ofNat_upper_toNat : ∀ k, k < 26 → (Char.ofNat (65 + k)).toNat = 65 + k := by decide

theorem colVal_colChars : ∀ n, colVal (colChars n) = n := by
  intro n
  induction n using Nat.strong_induction_on with
  | _ n ih =>
    match n with
    | 0 => rfl
    | m + 1 =>
      rw [colChars_succ, colVal_append_singleton,
        ih (m / 26) (Nat.lt_succ_of_le (Nat.div_le_self m 26)),
        char_ofNat_upper_toNat (m % 26) (Nat.mod_lt m (by omega))]
      omega

theorem digitsVal_append_singleton (l : List Char) (c : Char) :
    digitsVal (l ++ [c]) = digitsVal l * 10 + (c.toNat - 48) := by
  simp [digitsVal, List.foldl_append]

theorem char_ofNat_digit_toNat : ∀ k, k < 10 → (Char.ofNat (48 + k)).toNat = 48 + k := by decide

theorem digitsVal_decChars : ∀ n, digitsVal (decChars n) = n := by
  intro n
  induction n using Nat.strong_induction_on with
  | _ n ih =>
    match n with
    | 0 => rfl
    | m + 1 =>
      rw [decChars_succ, digitsVal_append_singleton,
        ih ((m + 1) / 10) (by omega),
        char_ofNat_digit_toNat ((m + 1) % 10) (Nat.mod_lt (m + 1) (by omega))]
      omega

theorem colChars_mem : ∀ n, ∀ c ∈ colChars n, ∃ k, k < 26 ∧ c = Char.ofNat (65 + k) := by
  intro n
  induction n using Nat.strong_induction_on with
  | _ n ih =>
    match n with
    | 0 => intro c hc; simp [colChars, colCharsAux] at hc
    | m + 1 =>
      intro c hc
      rw [colChars_succ] at hc
      rcases List.mem_append.mp hc with h | h
      · exact ih (m / 26) (Nat.lt_succ_of_le (Nat.div_le_self m 26)) c h
      · exact ⟨m % 26, Nat.mod_lt m (by omega), (List.mem_singleton.mp h)⟩

theorem decChars_mem : ∀ n, ∀ c ∈ decChars n, ∃ k, k < 10 ∧ c = Char.ofNat (48 + k) := by
  intro n
  induction n using Nat.strong_induction_on with
  | _ n ih =>
    match n with
    | 0 => intro c hc; simp [decChars, decCharsAux] at hc
    | m + 1 =>
      intro c hc
      rw [decChars_succ] at hc
      rcases List.mem_append.mp hc with h | h
      · exact ih ((m + 1) / 10) (by omega) c h
      · exact ⟨(m + 1) % 10, Nat.mod_lt (m + 1) (by omega), (List.mem_singleton.mp h)⟩

theorem upper_char_classes : ∀ k, k < 26 →
    (Char.ofNat (65 + k)).isUpper = true ∧ (Char.ofNat (65 + k)).isDigit = false ∧
    Char.ofNat (65 + k) ≠ Char.ofNat 36 ∧ Char.ofNat (65 + k) ≠ Char.ofNat 33 ∧
    Char.ofNat (65 + k) ≠ Char.ofNat 39 := by decide

theorem digit_char_classes : ∀ k, k < 10 →
    (Char.ofNat (48 + k)).isDigit = true ∧ (Char.ofNat (48 + k)).isUpper = false ∧
    Char.ofNat (48 + k) ≠ Char.ofNat 36 ∧ Char.ofNat (48 + k) ≠ Char.ofNat 33 ∧
    Char.ofNat (48 + k) ≠ Char.ofNat 39 := by decide

theorem colChars_ne_nil (n : Nat) (h : 1 ≤ n) : colChars n ≠ [] := by
  match n, h with
  | m + 1, _ => rw [colChars_succ]; simp

theorem decChars_ne_nil (n : Nat) (h : 1 ≤ n) : decChars n ≠ [] := by
  match n, h with
  | m + 1, _ => rw [decChars_succ]; simp

theorem colChars_length_le_one (n : Nat) (h : n ≤ 26) : (colChars n).length ≤ 1 := by
  match n with
  | 0 => simp [colChars, colCharsAux]
  | m + 1 =>
    rw [colChars_succ]
    have hm : m / 26 = 0 := by omega
    rw [hm]
    simp [colChars, colCharsAux]

theorem colChars_length_le_two (n : Nat) (h : n ≤ 702) : (colChars n).length ≤ 2 := by
  match n with
  | 0 => simp [colChars, colCharsAux]
  | m + 1 =>
    rw [colChars_succ]
    have := colChars_length_le_one (m / 26) (by omega)
    simp only [List.length_append, List.length_singleton]
    omega

theorem colChars_length_le_three (n : Nat) (h : n ≤ 18278) : (colChars n).length ≤ 3 := by
  match n with
  | 0 => simp [colChars, colCharsAux]
  | m + 1 =>
    rw [colChars_succ]
    have := colChars_length_le_two (m / 26) (by omega)
    simp only [List.length_append, List.length_singleton]
    omega

/-- If every element of `xs` satisfies `P` and the head of `ys` (when present)
does not, `takeWhile`/`dropWhile` split `xs ++ ys` exactly at the border. -/
theorem takeWhile_dropWhile_append (P : Char → Bool) :
    ∀ (xs ys : List Char), (∀ c ∈ xs, P c = true) →
    (∀ y, ys.head? = some y → P y = false) →
    (xs ++ ys).takeWhile P = xs ∧ (xs ++ ys).dropWhile P = ys := by
  intro xs
  induction xs with
  | nil =>
    intro ys _ hy
    match ys with
    | [] => simp
    | y :: t =>
      have := hy y rfl
      simp [List.takeWhile, List.dropWhile, this]
  | cons x xs ihx =>
    intro ys hx hy
    have hPx : P x = true := hx x (List.mem_cons_self x xs)
    have := ihx ys (fun c hc => hx c (List.mem_cons_of_mem x hc)) hy
    simp [List.takeWhile, List.dropWhile, hPx, this.1, this.2]

theorem splitChar_ne_nil (sep : Char) : ∀ l, splitChar sep l ≠ [] := by
  intro l
  induction l with
  | nil => simp [splitChar]
  | cons c cs ih =>
    simp only [splitChar]
    match h : splitChar sep cs with
    | [] => simp
    | h1 :: t1 =>
      by_cases hc : c = sep <;> simp [hc]

theorem splitChar_no_sep (sep : Char) :
    ∀ l, (∀ c ∈ l, c ≠ sep) → splitChar sep l = [l] := by
  intro l
  induction l with
  | nil => intro _; rfl
  | cons c cs ih =>
    intro h
    have hcs := ih (fun d hd => h d (List.mem_cons_of_mem c hd))
    have hc : c ≠ sep := h c (List.mem_cons_self c cs)
    simp only [splitChar, hcs]
    simp [hc]

theorem splitChar_append_sep (sep : Char) :
    ∀ a b, (∀ c ∈ a, c ≠ sep) → splitChar sep (a ++ sep :: b) = a :: splitChar sep b := by
  intro a
  induction a with
  | nil =>
    intro b _
    simp only [List.nil_append, splitChar]
    match h : splitChar sep b with
    | [] => exact absurd h (splitChar_ne_nil sep b)
    | h1 :: t1 => simp
  | cons c cs ih =>
    intro b h
    have hc : c ≠ sep := h c (List.mem_cons_self c cs)
    have := ih b (fun d hd => h d (List.mem_cons_of_mem c hd))
    simp only [List.cons_append, splitChar, List.append_eq]
    rw [this]
    simp [hc]

/-- Stripping apostrophes from a quoted list recovers the original, when the
original is nonempty and has no apostrophe at either end. -/
theorem pyStripChar_quoted (l : List Char) (hne : l ≠ [])
    (hh : l.head? ≠ some apos) (hl : l.getLast? ≠ some apos) :
    pyStripChar apos (apos :: (l ++ [apos])) = l := by
  obtain ⟨x, l0, rfl⟩ := List.exists_cons_of_ne_nil hne
  have hx : x ≠ apos := by
    intro h; exact hh (by simp [h])
  unfold pyStripChar
  have step1 : List.dropWhile (fun c => c = apos) (apos :: (x :: l0 ++ [apos]))
      = x :: l0 ++ [apos] := by
    simp [List.dropWhile, hx]
  rw [step1]
  have hrev : (x :: l0 ++ [apos]).reverse = apos :: (x :: l0).reverse := by
    simp
  rw [hrev]
  have hhead : (x :: l0).reverse.head? ≠ some apos := by
    rw [List.head?_reverse (x :: l0)]
    exact hl
  have step2 : List.dropWhile (fun c => c = apos) (apos :: (x :: l0).reverse)
      = List.dropWhile (fun c => c = apos) ((x :: l0).reverse) := by
    simp [List.dropWhile]
  have step3 : List.dropWhile (fun c => c = apos) ((x :: l0).reverse) = (x :: l0).reverse := by
    match hr : (x :: l0).reverse with
    | [] => rfl
    | y :: t =>
      have hy : y ≠ apos := by
        intro h
        apply hhead
        rw [hr, h]
        rfl
      simp [List.dropWhile, hy]
  rw [step2, step3, List.reverse_reverse]

theorem head?_mem_of_ne_nil (l : List Char) (y : Char) (hy : l.head? = some y) : y ∈ l := by
  match l, hy with
  | z :: t, hy =>
    have : z = y := by simpa using hy
    rw [← this]
    exact List.mem_cons_self z t

/-- Parsing a generated cell token recovers the 0-based row and column, as
long as the column needs at most three letters (the parser's regex accepts
one to three column letters). -/
theorem xl_cell_to_rowcol_generated (r c : Nat) (hc : c ≤ 18277) :
    xl_cell_to_rowcol (xl_rowcol_to_cell r c) = some ((r : Int), (c : Int)) := by
  have hdata : (xl_rowcol_to_cell r c).data = colChars (c + 1) ++ decChars (r + 1) := rfl
  obtain ⟨x, a0, hx⟩ := List.exists_cons_of_ne_nil (colChars_ne_nil (c + 1) (by omega))
  have hupper : ∀ ch ∈ colChars (c + 1), Char.isUpper ch = true := by
    intro ch hch
    obtain ⟨k, hk, rfl⟩ := colChars_mem (c + 1) ch hch
    exact (upper_char_classes k hk).1
  have hdhead : ∀ y, (decChars (r + 1)).head? = some y → Char.isUpper y = false := by
    intro y hy
    obtain ⟨k, hk, rfl⟩ := decChars_mem (r + 1) y (head?_mem_of_ne_nil _ y hy)
    exact (digit_char_classes k hk).2.1
  have hsplit := takeWhile_dropWhile_append Char.isUpper (colChars (c + 1))
    (decChars (r + 1)) hupper hdhead
  have hne : colChars (c + 1) ++ decChars (r + 1) ≠ [] := by
    rw [hx]; simp
  have hhead : (colChars (c + 1) ++ decChars (r + 1)).head? = some x := by
    rw [hx]; rfl
  have hx36 : x ≠ Char.ofNat 36 := by
    have hxmem : x ∈ colChars (c + 1) := by rw [hx]; exact List.mem_cons_self x a0
    obtain ⟨k, hk, rfl⟩ := colChars_mem (c + 1) x hxmem
    exact (upper_char_classes k hk).2.2.1
  have hlen_ne : ¬((colChars (c + 1)).length = 0 ∨ 3 < (colChars (c + 1)).length) := by
    have h3 := colChars_length_le_three (c + 1) (by omega)
    have h1 : (colChars (c + 1)).length ≠ 0 := by rw [hx]; simp
    omega
  obtain ⟨y0, d0, hy0⟩ := List.exists_cons_of_ne_nil (decChars_ne_nil (r + 1) (by omega))
  have hdh0 : (decChars (r + 1)).head? = some y0 := by rw [hy0]; rfl
  have hy36 : y0 ≠ Char.ofNat 36 := by
    obtain ⟨k, hk, rfl⟩ := decChars_mem (r + 1) y0 (head?_mem_of_ne_nil _ y0 hdh0)
    exact (digit_char_classes k hk).2.2.1
  have htake_digits : (decChars (r + 1)).takeWhile Char.isDigit = decChars (r + 1) := by
    have hall : ∀ ch ∈ decChars (r + 1), Char.isDigit ch = true := by
      intro ch hch
      obtain ⟨k, hk, rfl⟩ := decChars_mem (r + 1) ch hch
      exact (digit_char_classes k hk).1
    have := takeWhile_dropWhile_append Char.isDigit (decChars (r + 1)) [] hall
      (fun y hy => by simp at hy)
    simpa using this.1
  have hdlen : (decChars (r + 1)).length ≠ 0 := by rw [hy0]; simp
  have hri : (((r + 1 : Nat) : Int)) - 1 = (r : Int) := by push_cast; ring
  have hci : (((c + 1 : Nat) : Int)) - 1 = (c : Int) := by push_cast; ring
  simp only [xl_cell_to_rowcol, hdata, hne, if_neg, ite_false, if_false,
    hhead, Option.some.injEq, hx36, hsplit.1, hsplit.2,
    hlen_ne, hdh0, hy36, htake_digits, hdlen,
    digitsVal_decChars, colVal_colChars, hri, hci]

theorem strMk_data : ∀ s : String, String.mk s.data = s
  | ⟨_⟩ => rfl

theorem strMk_inj {l1 l2 : List Char} (h : String.mk l1 = String.mk l2) : l1 = l2 :=
  congrArg String.data h

theorem splitChar_headD (sep : Char) :
    ∀ l : List Char, (splitChar sep l).headD [] = l.takeWhile (fun c => c != sep) := by
  intro l
  induction l with
  | nil => rfl
  | cons c cs ih =>
    simp only [splitChar]
    match hs : splitChar sep cs with
    | [] => exact absurd hs (splitChar_ne_nil sep cs)
    | h :: t =>
      rw [hs] at ih
      by_cases hc : c = sep
      · subst hc
        simp [List.takeWhile]
      · have hb : (c != sep) = true := by simp [hc]
        simp only [hc, if_false, ite_false]
        simp only [List.headD] at ih ⊢
        simp only [List.takeWhile, hb, ih]

/-! ## Claim C1. -/

/-- C1: for every file count N ≥ 1 and header count H ≥ 1, with stride
N + 2, the layout offset map (f, h) ↦ f + (N + 2) * h is injective on
the index rectangle, and its image has exactly N * H distinct values, so
no two (file, header) pairs write to the same destination column. -/
theorem c1_offset_injective (N H : Nat) (hN : 1 ≤ N) (hH : 1 ≤ H) :
    (∀ f1 h1 f2 h2, f1 < N → h1 < H → f2 < N → h2 < H →
      offset f1 h1 N = offset f2 h2 N → f1 = f2 ∧ h1 = h2) ∧
    ((Finset.range N ×ˢ Finset.range H).image
      (fun p => offset p.1 p.2 N)).card = N * H := by
  have hinj : ∀ f1 h1 f2 h2, f1 < N → h1 < H → f2 < N → h2 < H →
      offset f1 h1 N = offset f2 h2 N → f1 = f2 ∧ h1 = h2 := by
    intro f1 h1 f2 h2 hf1 hh1 hf2 hh2 heq
    unfold offset at heq
    have e1 : (f1 + (N + 2) * h1) % (N + 2) = f1 := by
      rw [Nat.add_mul_mod_self_left]
      exact Nat.mod_eq_of_lt (by omega)
    have e2 : (f2 + (N + 2) * h2) % (N + 2) = f2 := by
      rw [Nat.add_mul_mod_self_left]
      exact Nat.mod_eq_of_lt (by omega)
    have hf : f1 = f2 := by rw [← e1, ← e2, heq]
    constructor
    · exact hf
    · subst hf
      have := Nat.eq_of_mul_eq_mul_left (show 0 < N + 2 by omega)
        (show (N + 2) * h1 = (N + 2) * h2 by omega)
      exact this
  refine ⟨hinj, ?_⟩
  rw [Finset.card_image_of_injOn, Finset.card_product, Finset.card_range, Finset.card_range]
  intro p hp q hq heq
  simp only [Finset.coe_product, Set.mem_prod, Finset.mem_coe, Finset.mem_range] at hp hq
  have := hinj p.1 p.2 q.1 q.2 hp.1 hp.2 hq.1 hq.2 heq
  exact Prod.ext this.1 this.2

/-- Witness for C1 at N = 2, H = 3. -/
theorem c1_offset_injective_witness :
    ((1 : Nat) ≤ 2 ∧ (1 : Nat) ≤ 3) ∧
    ((∀ f1 h1 f2 h2, f1 < 2 → h1 < 3 → f2 < 2 → h2 < 3 →
       offset f1 h1 2 = offset f2 h2 2 → f1 = f2 ∧ h1 = h2) ∧
     ((Finset.range 2 ×ˢ Finset.range 3).image
       (fun p => offset p.1 p.2 2)).card = 2 * 3) :=
  ⟨⟨by decide, by decide⟩, c1_offset_injective 2 3 (by decide) (by decide)⟩

/-! ## Claim C2. -/

theorem pyInvert_ne_zero (b : Bool) : pyInvert b ≠ 0 := by
  cases b <;> decide

theorem scanEmission_foldl (target_headers : List String) (sheet : Worksheet) :
    ∀ (l : List Nat) (b : Bool) (k : Nat),
    ((l.foldl
      (fun st col =>
        if cellIsTarget target_headers (sheet.cells 0 col) then
          if pyInvert st.1 ≠ 0 then (true, st.2 + 1) else st
        else st)
      ((b, k) : Bool × Nat)).2 : Nat)
      = k + (l.filter (fun c => cellIsTarget target_headers (sheet.cells 0 c))).length := by
  intro l
  induction l with
  | nil => intro b k; simp
  | cons x xs ih =>
    intro b k
    by_cases hx : cellIsTarget target_headers (sheet.cells 0 x) = true
    · simp only [List.foldl_cons, List.filter_cons, hx, if_pos (pyInvert_ne_zero b), if_true]
      rw [ih true (k + 1)]
      simp
      omega
    · have hx2 : cellIsTarget target_headers (sheet.cells 0 x) = false := by
        simpa using hx
      simp only [List.foldl_cons, List.filter_cons, hx2, Bool.false_eq_true, if_false, ite_false]
      exact ih b k

/-- C2 (code bug): the point-analysis emission fires once per matching
column, not once per (file, sheet) pair.  The flag check `~flag` is a
Python bitwise NOT on a bool (`~False == -1`, `~True == -2`), both truthy,
so the guarded branch runs on every match: the emission count equals the
number of matched columns, and a sheet with 5 target matches emits 5
times.  The plain-boolean check the spec (and the code's own comment)
describes emits exactly once on the same sheet. -/
theorem c2_emission_per_match :
    (∀ target_headers sheet, scanEmissionCount target_headers sheet =
      ((List.range sheet.maxColumn).filter
        (fun c => cellIsTarget target_headers (sheet.cells 0 c))).length) ∧
    scanEmissionCount TARGET_HEADERS wsFive = 5 ∧
    scanEmissionCountSpec TARGET_HEADERS wsFive = 1 := by
  refine ⟨?_, by decide, by decide⟩
  intro target_headers sheet
  unfold scanEmissionCount
  rw [scanEmission_foldl target_headers sheet (List.range sheet.maxColumn) false 0]
  omega

/-! ## Claim C3. -/

/-- C3 (code bug): the per-sheet scan reads `sheet.max_colum`, an attribute
openpyxl worksheets do not define (`max_column` is the defined name), so
the column-count read raises `AttributeError` for every sheet — before any
header cell is examined. -/
theorem c3_scan_colcount_raises :
    (∀ sheet, scanColCount sheet = PyResult.raised PyErr.attributeError) ∧
    scanColCount wsAvg = PyResult.raised PyErr.attributeError ∧
    (∀ sheet, worksheetGetattr sheet "max_column" = PyResult.ok sheet.maxColumn) := by
  refine ⟨fun sheet => rfl, rfl, fun sheet => rfl⟩

/-! ## Claim C4. -/

/-- C4 (counterexample): the cell lookup sits outside the `try` block, so a
lookup failure propagates instead of producing the default: reading row
-1 (address token "A0") raises, and so does reading column 18278 (token
"AAAA1", four letters, beyond openpyxl's coordinate pattern) even though
both coordinates are supplied as plain integers and a default is given. -/
theorem c4_counterexample :
    get_cell_value wsEmpty (-1) 0 true (CellValue.str "NA()")
      = PyResult.raised PyErr.invalidCoordinate ∧
    get_cell_value wsEmpty 0 18278 true (CellValue.str "NA()")
      = PyResult.raised PyErr.invalidCoordinate ∧
    ∀ v, get_cell_value wsEmpty (-1) 0 true (CellValue.str "NA()") ≠ PyResult.ok v := by
  refine ⟨rfl, by decide, ?_⟩
  intro v h
  rw [show get_cell_value wsEmpty (-1) 0 true (CellValue.str "NA()")
        = PyResult.raised PyErr.invalidCoordinate from rfl] at h
  exact PyResult.noConfusion h

/-- C4 (amended): once the cell lookup succeeds — row_no ≥ 0 and
0 ≤ col_no ≤ 18277, the coordinate region openpyxl accepts —
`get_cell_value` never raises: it returns the `try`-block result, and any
coercion failure (such as non-numeric text when a number was requested)
yields the default value.  Outside that region the lookup, which sits
before the `try` block, raises instead of returning the default. -/
theorem c4_no_raise_when_lookup_succeeds (ws : Worksheet) (row_no col_no : Int)
    (is_number : Bool) (d : CellValue) (hr : 0 ≤ row_no) (hc : 0 ≤ col_no)
    (hc3 : col_no ≤ 18277) :
    get_cell_value ws row_no col_no is_number d
      = PyResult.ok (coerceCell (ws.cells row_no.toNat col_no.toNat) is_number d) ∧
    (∀ cd, isExcelError cd = false → pyFloat cd = Option.none →
      coerceCell cd true d = d) := by
  constructor
  · simp [get_cell_value, worksheetLookupValue, hr, hc, hc3]
  · intro cd h1 h2
    simp [coerceCell, h1, h2]

/-- Witness for C4 (amended) at the empty worksheet, cell (0, 0). -/
theorem c4_witness :
    ((0 : Int) ≤ 0 ∧ (0 : Int) ≤ 0 ∧ (0 : Int) ≤ 18277) ∧
    (get_cell_value wsEmpty 0 0 true CellValue.none
       = PyResult.ok (coerceCell (wsEmpty.cells 0 0) true CellValue.none) ∧
     (∀ cd, isExcelError cd = false → pyFloat cd = Option.none →
       coerceCell cd true CellValue.none = CellValue.none)) :=
  ⟨⟨by decide, by decide, by decide⟩,
   c4_no_raise_when_lookup_succeeds wsEmpty 0 0 true CellValue.none
     (by decide) (by decide) (by decide)⟩

/-! ## Claim C5. -/

/-- C5: a cell holding any of the six fixed error markers is read back as
the configured default (the raw marker is replaced), and the concrete
scenario holds: the DIV/0 marker read as a number with default "NA()"
yields the literal string "NA()".  The coordinates range over the region
where real openpyxl cells exist (row ≥ 0, column index up to ZZZ =
18277), on which the lookup model is faithful. -/
theorem c5_error_marker_default (ws : Worksheet) (row_no col_no : Int)
    (is_number : Bool) (d : CellValue) (m : String)
    (hr : 0 ≤ row_no) (hc : 0 ≤ col_no) (hc3 : col_no ≤ 18277)
    (hm : ws.cells row_no.toNat col_no.toNat = CellValue.str m)
    (hmem : m ∈ EXCEL_ERROR_VALUES) :
    get_cell_value ws row_no col_no is_number d = PyResult.ok d ∧
    get_cell_value wsDiv0 1 0 true (CellValue.str ERROR_VALUE_FOR_INPUT)
      = PyResult.ok (CellValue.str "NA()") := by
  constructor
  · have herr : isExcelError (CellValue.str m) = true := by
      simp only [EXCEL_ERROR_VALUES, ERROR_VALUE_FOR_INPUT, List.mem_cons,
        List.not_mem_nil, or_false] at hmem
      rcases hmem with rfl | rfl | rfl | rfl | rfl | rfl <;> rfl
    have hlk : worksheetLookupValue ws row_no col_no = PyResult.ok (CellValue.str m) := by
      simp [worksheetLookupValue, hr, hc, hc3, hm]
    cases is_number <;> simp [get_cell_value, hlk, coerceCell, herr]
  · rfl

/-- Witness for C5 at the DIV/0 fixture. -/
theorem c5_witness :
    ((0 : Int) ≤ 1 ∧ (0 : Int) ≤ 0 ∧ (0 : Int) ≤ 18277 ∧
      wsDiv0.cells 1 0 = CellValue.str "#DIV/0!" ∧
      "#DIV/0!" ∈ EXCEL_ERROR_VALUES) ∧
    (get_cell_value wsDiv0 1 0 true (CellValue.str "NA()")
       = PyResult.ok (CellValue.str "NA()") ∧
     get_cell_value wsDiv0 1 0 true (CellValue.str ERROR_VALUE_FOR_INPUT)
       = PyResult.ok (CellValue.str "NA()")) :=
  ⟨⟨by decide, by decide, by decide, by decide, by decide⟩,
   c5_error_marker_default wsDiv0 1 0 true (CellValue.str "NA()") "#DIV/0!"
     (by decide) (by decide) (by decide) (by decide) (by decide)⟩

/-! ## Claim C9. -/

/-- C9 (counterexample): for the base filename "run.v2.xlsx", whose stem
contains a dot, get_filename returns "run", not the full stem "run.v2". -/
theorem c9_counterexample :
    get_filename "run.v2.xlsx" = "run" ∧ get_filename "run.v2.xlsx" ≠ "run.v2" := by
  decide

/-- C9 (amended): get_filename returns the base name truncated at its
first dot (`split(".")[0]`); this equals "filename without extension"
exactly when the stem contains no dot. -/
theorem c9_first_dot (stem ext : String)
    (hstem_ne : stem.data ≠ [])
    (hstem_nodot : ∀ ch ∈ stem.data, ch ≠ Char.ofNat 46)
    (hstem_nosep : ∀ ch ∈ stem.data, isPathSep ch = false)
    (hext_nosep : ∀ ch ∈ ext.data, isPathSep ch = false) :
    get_filename (stem ++ "." ++ ext) = stem ∧
    (∀ p : String, p.data.any isPathSep = false →
      get_filename p = String.mk (p.data.takeWhile (fun c => c != Char.ofNat 46))) := by
  have hgen : ∀ p : String, p.data.any isPathSep = false →
      get_filename p = String.mk (p.data.takeWhile (fun c => c != Char.ofNat 46)) := by
    intro p hp
    unfold get_filename
    rw [hp]
    simp only [Bool.false_eq_true, if_false, ite_false]
    rw [splitChar_headD]
  refine ⟨?_, hgen⟩
  have hdata : (stem ++ "." ++ ext).data = stem.data ++ Char.ofNat 46 :: ext.data := by
    have hdot : ".".data = [Char.ofNat 46] := by decide
    rw [String.data_append, String.data_append, hdot, List.append_assoc]
    rfl
  have hnosep : (stem ++ "." ++ ext).data.any isPathSep = false := by
    rw [hdata]
    simp only [List.any_append, List.any_cons, Bool.or_eq_false_iff]
    refine ⟨?_, ?_, ?_⟩
    · rw [List.any_eq_false]
      intro c hcmem
      simp [hstem_nosep c hcmem]
    · rfl
    · rw [List.any_eq_false]
      intro c hcmem
      simp [hext_nosep c hcmem]
  rw [hgen _ hnosep, hdata]
  have hsplit := takeWhile_dropWhile_append (fun c => c != Char.ofNat 46)
    stem.data (Char.ofNat 46 :: ext.data)
    (fun c hcm => by simpa using hstem_nodot c hcm)
    (fun y hy => by
      have h46 : Char.ofNat 46 = y := by simpa using hy
      rw [← h46]
      simp)
  rw [hsplit.1, strMk_data]

/-- Witness for C9 (amended) at stem "run", extension "xlsx". -/
theorem c9_witness :
    ("run".data ≠ [] ∧ (∀ ch ∈ "run".data, ch ≠ Char.ofNat 46)) ∧
    (get_filename ("run" ++ "." ++ "xlsx") = "run" ∧
     (∀ p : String, p.data.any isPathSep = false →
       get_filename p = String.mk (p.data.takeWhile (fun c => c != Char.ofNat 46)))) :=
  ⟨⟨by decide, by decide⟩,
   c9_first_dot "run" "xlsx" (by decide) (by decide) (by decide) (by decide)⟩

/-! ## Claim C6. -/

/-- C6 (counterexample): the round trip fails as universally stated — a
sheet name containing `!` (such as `a!b`) makes the parse raise (the
split-at-`!` heuristic cuts the name apart), a sheet name beginning and
ending with apostrophes is altered by `strip("'")`, and a column needing
four letters (18278 and up) is rejected by the address regex. -/
theorem c6_counterexample :
    convert_from_excel_cell_address (convert_to_excel_address 0 0
      (String.mk [Char.ofNat 97, Char.ofNat 33, Char.ofNat 98])) = Option.none ∧
    convert_from_excel_cell_address (convert_to_excel_address 0 0
      (String.mk [apos, Char.ofNat 120, apos]))
      ≠ some (String.mk [apos, Char.ofNat 120, apos], 0, 0) ∧
    convert_from_excel_cell_address (convert_to_excel_address 0 18278 "s") = Option.none := by
  refine ⟨by decide, by decide, by decide⟩

/-- C6 (amended): the round trip
`convert_from_excel_cell_address (convert_to_excel_address r c s) = (s, r, c)`
holds for every row `r ≥ 0` and column `c ≥ 0` needing at most three
letters (`c ≤ 18277`), and every nonempty sheet name that contains no `!`
and neither starts nor ends with an apostrophe. -/
theorem c6_round_trip (r c : Nat) (s : String) (hc : c ≤ 18277)
    (hne : s.data ≠ []) (hbang : ∀ ch ∈ s.data, ch ≠ Char.ofNat 33)
    (hh : s.data.head? ≠ some apos) (hl : s.data.getLast? ≠ some apos) :
    convert_from_excel_cell_address (convert_to_excel_address r c s)
      = some (s, (r : Int), (c : Int)) := by
  have hs_ne : ¬(s = "") := by
    intro heq
    apply hne
    rw [heq]
  have haddr : convert_to_excel_address r c s
      = String.mk (apos :: s.data ++ [apos, Char.ofNat 33] ++ (xl_rowcol_to_cell r c).data) := by
    unfold convert_to_excel_address
    rw [if_neg hs_ne]
  have hdc : (xl_rowcol_to_cell r c).data = colChars (c + 1) ++ decChars (r + 1) := rfl
  have hcell33 : ∀ ch ∈ (xl_rowcol_to_cell r c).data, ch ≠ Char.ofNat 33 := by
    intro ch hch
    rw [hdc] at hch
    rcases List.mem_append.mp hch with hcm | hcm
    · obtain ⟨k, hk, rfl⟩ := colChars_mem (c + 1) ch hcm
      exact (upper_char_classes k hk).2.2.2.1
    · obtain ⟨k, hk, rfl⟩ := decChars_mem (r + 1) ch hcm
      exact (digit_char_classes k hk).2.2.2.1
  have ha : ∀ ch ∈ apos :: (s.data ++ [apos]), ch ≠ Char.ofNat 33 := by
    intro ch hch
    rcases List.mem_cons.mp hch with rfl | hcm
    · decide
    · rcases List.mem_append.mp hcm with hcm2 | hcm2
      · exact hbang ch hcm2
      · rw [List.mem_singleton.mp hcm2]
        decide
  have hA : (String.mk (apos :: s.data ++ [apos, Char.ofNat 33]
        ++ (xl_rowcol_to_cell r c).data)).data
      = (apos :: (s.data ++ [apos])) ++ Char.ofNat 33 :: (xl_rowcol_to_cell r c).data := by
    simp
  have hsplit : splitChar (Char.ofNat 33)
      ((apos :: (s.data ++ [apos])) ++ Char.ofNat 33 :: (xl_rowcol_to_cell r c).data)
      = (apos :: (s.data ++ [apos])) :: [(xl_rowcol_to_cell r c).data] := by
    rw [splitChar_append_sep (Char.ofNat 33) _ _ ha,
      splitChar_no_sep (Char.ofNat 33) _ hcell33]
  have hhas : pyHasChar (Char.ofNat 33)
      ((apos :: (s.data ++ [apos])) ++ Char.ofNat 33 :: (xl_rowcol_to_cell r c).data) = true := by
    simp [pyHasChar, List.any_append]
  rw [haddr]
  unfold convert_from_excel_cell_address
  rw [hA, hhas, if_pos rfl, hsplit]
  simp only [List.headD, List.drop, List.head?]
  rw [pyStripChar_quoted s.data hne hh hl, strMk_data (xl_rowcol_to_cell r c),
    xl_cell_to_rowcol_generated r c hc, strMk_data s]

/-- Witness for C6 (amended) at r = 2, c = 3, sheet "Run1". -/
theorem c6_witness :
    ((3 : Nat) ≤ 18277 ∧ "Run1".data ≠ [] ∧
      (∀ ch ∈ "Run1".data, ch ≠ Char.ofNat 33) ∧
      "Run1".data.head? ≠ some apos ∧ "Run1".data.getLast? ≠ some apos) ∧
    convert_from_excel_cell_address (convert_to_excel_address 2 3 "Run1")
      = some ("Run1", (2 : Int), (3 : Int)) :=
  ⟨⟨by decide, by decide, by decide, by decide, by decide⟩,
   c6_round_trip 2 3 "Run1" (by decide) (by decide) (by decide) (by decide) (by decide)⟩

/-! ## Claims C8 and C10: the point-analysis formula writes. -/

theorem applyPtWrites_append_single (ws : List PtWrite) (w : PtWrite) (r c : Nat) :
    applyPtWrites (ws ++ [w]) r c
      = if r = w.row ∧ c = w.col then some w.content else applyPtWrites ws r c := by
  simp [applyPtWrites, List.foldl_append]

theorem insert_formula_concat (si fi stride : Nat) (title : String)
    (init : List String) (h : String) :
    insert_point_analysis_formula si fi stride title (init ++ [h])
      = insert_point_analysis_formula si fi stride title init
        ++ [⟨si, stride * init.length, ptLabel title h⟩,
            ⟨si, 1 + fi, indirectFormula fi stride init.length title⟩] := by
  unfold insert_point_analysis_formula
  rw [List.enum_append]
  simp [List.enumFrom]

/-- Final content of the formula cell (sheet_index, 1 + file_index): the
last write wins, and the last write is the INDIRECT formula of the last
target header. -/
theorem ptFinalCell (si fi stride : Nat) (title : String) (targets : List String)
    (hne : targets ≠ []) :
    applyPtWrites (insert_point_analysis_formula si fi stride title targets) si (1 + fi)
      = some (indirectFormula fi stride (targets.length - 1) title) := by
  rcases List.eq_nil_or_concat targets with rfl | ⟨init, a, rfl⟩
  · exact absurd rfl hne
  · rw [List.concat_eq_append, insert_formula_concat]
    have hassoc : insert_point_analysis_formula si fi stride title init
        ++ [(⟨si, stride * init.length, ptLabel title a⟩ : PtWrite),
            ⟨si, 1 + fi, indirectFormula fi stride init.length title⟩]
        = (insert_point_analysis_formula si fi stride title init
            ++ [⟨si, stride * init.length, ptLabel title a⟩])
          ++ [⟨si, 1 + fi, indirectFormula fi stride init.length title⟩] := by
      simp
    rw [hassoc, applyPtWrites_append_single, if_pos ⟨rfl, rfl⟩]
    have hlen : (init ++ [a]).length - 1 = init.length := by simp
    rw [hlen]

theorem decChars_inj (a b : Nat) (h : decChars a = decChars b) : a = b := by
  have ha := digitsVal_decChars a
  rw [← ha, h, digitsVal_decChars]

theorem indirectFormula_idx_inj (fi stride i j : Nat) (title : String)
    (hstride : 1 ≤ stride) (hij : i ≠ j) :
    indirectFormula fi stride i title ≠ indirectFormula fi stride j title := by
  intro heq
  apply hij
  simp only [indirectFormula, List.append_assoc] at heq
  have heqd := strMk_inj heq
  have h1 := List.append_cancel_left heqd
  have h2 := List.append_cancel_left h1
  have h3 := List.append_cancel_left h2
  have h4 := List.append_cancel_right h3
  have h5 := decChars_inj _ _ h4
  have h6 : stride * i = stride * j := by omega
  exact Nat.eq_of_mul_eq_mul_left (by omega) h6

theorem indirectFormula_take9 (fi stride i : Nat) (title : String) :
    (indirectFormula fi stride i title).data.take 9 = "=INDIRECT".data := by
  have hd : (indirectFormula fi stride i title).data
      = "=INDIRECT(ADDRESS(".data ++ ((convert_to_excel_address 0 (1 + fi) "").data
        ++ ("+1, ".data ++ (decChars (fi + stride * i + 1)
        ++ (",,,".data ++ ([Char.ofNat 34] ++ (title.data
        ++ ([Char.ofNat 34] ++ "))".data))))))) := by
    simp [indirectFormula, List.append_assoc]
  rw [hd, List.take_append_of_le_length (by decide)]
  decide

theorem error_guard_formula_take9 (f : String) (d : Option String) :
    (error_guard_formula f d).data.take 9 = "=IFERROR(".data := by
  cases d with
  | none =>
    have hd : (error_guard_formula f Option.none).data
        = "=IFERROR(".data ++ (f.data.dropWhile (fun c => c == Char.ofNat 61)
          ++ ", NA())".data) := by
      simp [error_guard_formula, List.append_assoc]
    rw [hd, List.take_append_of_le_length (by decide)]
    decide
  | some d0 =>
    have hd : (error_guard_formula f (some d0)).data
        = "=IFERROR(".data ++ (f.data.dropWhile (fun c => c == Char.ofNat 61)
          ++ (", ".data ++ (d0.data ++ ")".data))) := by
      simp [error_guard_formula, List.append_assoc]
    rw [hd, List.take_append_of_le_length (by decide)]
    decide

/-- C8 (counterexample): the formula cell emitted for the concrete call
(sheet index 0, file index 0, stride 4, sheet title "Run1", the module's
target headers) holds a bare INDIRECT formula: its text contains no
IFERROR occurrence anywhere, and it is not the error_guard_formula
wrapping of its own body — so the emitted text does not guard the
indirect lookup. -/
theorem c8_counterexample :
    applyPtWrites (insert_point_analysis_formula 0 0 4 "Run1" TARGET_HEADERS) 0 1
      = some "=INDIRECT(ADDRESS(B1+1, 5,,,\"Run1\"))" ∧
    hasRun "IFERROR".data "=INDIRECT(ADDRESS(B1+1, 5,,,\"Run1\"))".data = false ∧
    "=INDIRECT(ADDRESS(B1+1, 5,,,\"Run1\"))"
      ≠ error_guard_formula "=INDIRECT(ADDRESS(B1+1, 5,,,\"Run1\"))" Option.none := by
  refine ⟨by decide, by decide, by decide⟩

/-- C8 (amended): the point-analysis formula cell holds the bare
`=INDIRECT(ADDRESS(...))` text of the last target header; every formula
this emitter generates begins with "=INDIRECT", while every
error_guard_formula output begins with "=IFERROR(" — the emitted formulas
are not IFERROR-wrapped, so a reference failure is not guarded. -/
theorem c8_no_error_guard (sheet_index file_index stride : Nat) (title : String)
    (targets : List String) (hne : targets ≠ []) :
    applyPtWrites (insert_point_analysis_formula sheet_index file_index stride title targets)
      sheet_index (1 + file_index)
      = some (indirectFormula file_index stride (targets.length - 1) title) ∧
    (∀ i, (indirectFormula file_index stride i title).data.take 9 = "=INDIRECT".data) ∧
    (∀ f d, (error_guard_formula f d).data.take 9 = "=IFERROR(".data) ∧
    "=INDIRECT".data ≠ "=IFERROR(".data :=
  ⟨ptFinalCell sheet_index file_index stride title targets hne,
   fun i => indirectFormula_take9 file_index stride i title,
   fun f d => error_guard_formula_take9 f d,
   by decide⟩

/-- Witness for C8 (amended) at sheet index 0, file index 0, stride 4,
title "Run1", the module's target headers. -/
theorem c8_witness :
    (TARGET_HEADERS ≠ []) ∧
    (applyPtWrites (insert_point_analysis_formula 0 0 4 "Run1" TARGET_HEADERS) 0 (1 + 0)
       = some (indirectFormula 0 4 (TARGET_HEADERS.length - 1) "Run1") ∧
     (∀ i, (indirectFormula 0 4 i "Run1").data.take 9 = "=INDIRECT".data) ∧
     (∀ f d, (error_guard_formula f d).data.take 9 = "=IFERROR(".data) ∧
     "=INDIRECT".data ≠ "=IFERROR(".data) :=
  ⟨by decide, c8_no_error_guard 0 0 4 "Run1" TARGET_HEADERS (by decide)⟩

/-- C10: every write of insert_point_analysis_formula is either a label
write at column stride * header_idx or a formula write at the single cell
(sheet_index, 1 + file_index); after the call that cell holds the INDIRECT
formula of the last header (index H - 1, referencing 1-based source column
file_index + stride * (H - 1) + 1), and for stride ≥ 1 the formulas of
distinct headers differ (so for H ≥ 2 every earlier formula has been
overwritten) while the label columns are pairwise distinct. -/
theorem c10_formula_overwrite (sheet_index file_index stride : Nat) (title : String)
    (targets : List String) (hne : targets ≠ []) (hstride : 1 ≤ stride) :
    (∀ w ∈ insert_point_analysis_formula sheet_index file_index stride title targets,
       (∃ i h, targets[i]? = some h ∧
          w = ⟨sheet_index, stride * i, ptLabel title h⟩) ∨
       (∃ i, i < targets.length ∧
          w = ⟨sheet_index, 1 + file_index, indirectFormula file_index stride i title⟩)) ∧
    applyPtWrites (insert_point_analysis_formula sheet_index file_index stride title targets)
      sheet_index (1 + file_index)
      = some (indirectFormula file_index stride (targets.length - 1) title) ∧
    (∀ i j, i < targets.length → j < targets.length → i ≠ j →
       stride * i ≠ stride * j ∧
       indirectFormula file_index stride i title
         ≠ indirectFormula file_index stride j title) := by
  refine ⟨?_, ptFinalCell sheet_index file_index stride title targets hne, ?_⟩
  · intro w hw
    unfold insert_point_analysis_formula at hw
    obtain ⟨blk, hblk, hwblk⟩ := List.mem_flatten.mp hw
    obtain ⟨p, hp, rfl⟩ := List.mem_map.mp hblk
    have hget : targets[p.1]? = some p.2 := List.mem_enum_iff_getElem?.mp hp
    have hlt : p.1 < targets.length := by
      have := List.getElem?_eq_some.mp hget
      exact this.1
    rcases List.mem_cons.mp hwblk with rfl | hwblk2
    · exact Or.inl ⟨p.1, p.2, hget, rfl⟩
    · rcases List.mem_cons.mp hwblk2 with rfl | hnil
      · exact Or.inr ⟨p.1, hlt, rfl⟩
      · exact absurd hnil (List.not_mem_nil w)
  · intro i j _ _ hij
    constructor
    · intro habs
      exact hij (Nat.eq_of_mul_eq_mul_left (by omega) habs)
    · exact indirectFormula_idx_inj file_index stride i j title hstride hij

/-- Witness for C10 at sheet index 0, file index 0, stride 4, title
"Run1", the module's target headers. -/
theorem c10_witness :
    (TARGET_HEADERS ≠ [] ∧ (1 : Nat) ≤ 4) ∧
    ((∀ w ∈ insert_point_analysis_formula 0 0 4 "Run1" TARGET_HEADERS,
       (∃ i h, TARGET_HEADERS[i]? = some h ∧
          w = ⟨0, 4 * i, ptLabel "Run1" h⟩) ∨
       (∃ i, i < TARGET_HEADERS.length ∧
          w = ⟨0, 1 + 0, indirectFormula 0 4 i "Run1"⟩)) ∧
     applyPtWrites (insert_point_analysis_formula 0 0 4 "Run1" TARGET_HEADERS) 0 (1 + 0)
       = some (indirectFormula 0 4 (TARGET_HEADERS.length - 1) "Run1") ∧
     (∀ i j, i < TARGET_HEADERS.length → j < TARGET_HEADERS.length → i ≠ j →
        4 * i ≠ 4 * j ∧
        indirectFormula 0 4 i "Run1" ≠ indirectFormula 0 4 j "Run1")) :=
  ⟨⟨by decide, by decide⟩,
   c10_formula_overwrite 0 0 4 "Run1" TARGET_HEADERS (by decide) (by decide)⟩

/-! ## Claim C7. -/

/-- The written data values are exactly what cell-value extraction
produces: at the in-range coordinates the loop uses, `get_cell_value`
returns the `coerceCell` result that `columnWrites` records. -/
theorem get_cell_value_in_range (ws : Worksheet) (r c : Nat) (d : CellValue)
    (hc : c ≤ 18277) :
    get_cell_value ws (r : Int) (c : Int) true d
      = PyResult.ok (coerceCell (ws.cells r c) true d) := by
  have hci : ((c : Int)) ≤ 18277 := by exact_mod_cast hc
  simp [get_cell_value, worksheetLookupValue, Int.toNat_natCast, hci]

/-- C7: for a matched (file, header) column, the transfer writes the
header text "filename (header)" at row 0 of destination column
`offset file_index header_index n_files` (header_index the position of the
header in the target list), writes one value for every data row 1..max_row
in that same column — each obtained through cell-value extraction with the
"NA()" sentinel as default, so an error-marker cell transfers as the
sentinel — and nothing else; with target headers ["Average", "STD"] and 2
files (stride 4) the Average columns of files 0 and 1 land at destination
columns 0 and 1 and the STD columns at 4 and 5.  The matched source
column ranges over the indices where real openpyxl cells exist
(up to ZZZ = 18277), on which the lookup model is faithful. -/
theorem c7_transfer (target_headers : List String) (excel_filename : String)
    (file_index n_files : Nat) (sheet : Worksheet) (col : Nat) (h : String)
    (hcell : sheet.cells 0 col = CellValue.str h)
    (hmem : target_headers.contains h = true)
    (hcol : col ≤ 18277) :
    (columnWrites target_headers excel_filename file_index n_files sheet col).head?
      = some ⟨0, offset file_index (target_headers.indexOf h) n_files,
          CellValue.str (excel_filename ++ " (" ++ h ++ ")")⟩ ∧
    (columnWrites target_headers excel_filename file_index n_files sheet col).length
      = sheet.maxRow + 1 ∧
    (∀ r, 1 ≤ r → r ≤ sheet.maxRow →
      (⟨r, offset file_index (target_headers.indexOf h) n_files,
         coerceCell (sheet.cells r col) true (CellValue.str ERROR_VALUE_FOR_INPUT)⟩ : DstWrite)
        ∈ columnWrites target_headers excel_filename file_index n_files sheet col) ∧
    (∀ w ∈ columnWrites target_headers excel_filename file_index n_files sheet col,
      w.col = offset file_index (target_headers.indexOf h) n_files) ∧
    (∀ r : Nat, get_cell_value sheet (r : Int) (col : Int) true
        (CellValue.str ERROR_VALUE_FOR_INPUT)
      = PyResult.ok (coerceCell (sheet.cells r col) true
          (CellValue.str ERROR_VALUE_FOR_INPUT))) ∧
    (offset 0 (TARGET_HEADERS.indexOf AVERAGE_LABEL) 2 = 0 ∧
     offset 1 (TARGET_HEADERS.indexOf AVERAGE_LABEL) 2 = 1 ∧
     offset 0 (TARGET_HEADERS.indexOf STD_LABEL) 2 = 4 ∧
     offset 1 (TARGET_HEADERS.indexOf STD_LABEL) 2 = 5) ∧
    coerceCell (CellValue.str "#DIV/0!") true (CellValue.str ERROR_VALUE_FOR_INPUT)
      = CellValue.str "NA()" := by
  have hCW : columnWrites target_headers excel_filename file_index n_files sheet col
      = (⟨0, offset file_index (target_headers.indexOf h) n_files,
          CellValue.str (excel_filename ++ " (" ++ h ++ ")")⟩ : DstWrite) ::
        (List.range sheet.maxRow).map (fun i =>
          ⟨i + 1, offset file_index (target_headers.indexOf h) n_files,
            coerceCell (sheet.cells (i + 1) col) true (CellValue.str ERROR_VALUE_FOR_INPUT)⟩) := by
    unfold columnWrites
    rw [hcell]
    have hmem2 : h ∈ target_headers := by simpa using hmem
    simp [hmem, hmem2]
  refine ⟨?_, ?_, ?_, ?_, ?_, ?_, ?_⟩
  · rw [hCW]
    rfl
  · rw [hCW]
    simp
  · intro r h1 h2
    rw [hCW]
    apply List.mem_cons_of_mem
    rw [List.mem_map]
    refine ⟨r - 1, ?_, ?_⟩
    · rw [List.mem_range]
      omega
    · have hr1 : r - 1 + 1 = r := by omega
      rw [hr1]
  · intro w hw
    rw [hCW] at hw
    rcases List.mem_cons.mp hw with rfl | hw2
    · rfl
    · obtain ⟨i, _, rfl⟩ := List.mem_map.mp hw2
      rfl
  · intro r
    exact get_cell_value_in_range sheet r col (CellValue.str ERROR_VALUE_FOR_INPUT) hcol
  · refine ⟨by decide, by decide, by decide, by decide⟩
  · decide

/-- Witness for C7 at the single-column "Average" fixture, file 0 of 2. -/
theorem c7_witness :
    (wsAvg.cells 0 0 = CellValue.str "Average" ∧
      TARGET_HEADERS.contains "Average" = true ∧ (0 : Nat) ≤ 18277) ∧
    ((columnWrites TARGET_HEADERS "run" 0 2 wsAvg 0).head?
       = some ⟨0, offset 0 (TARGET_HEADERS.indexOf "Average") 2,
           CellValue.str ("run" ++ " (" ++ "Average" ++ ")")⟩ ∧
     (columnWrites TARGET_HEADERS "run" 0 2 wsAvg 0).length = wsAvg.maxRow + 1 ∧
     (∀ r, 1 ≤ r → r ≤ wsAvg.maxRow →
       (⟨r, offset 0 (TARGET_HEADERS.indexOf "Average") 2,
          coerceCell (wsAvg.cells r 0) true (CellValue.str ERROR_VALUE_FOR_INPUT)⟩ : DstWrite)
         ∈ columnWrites TARGET_HEADERS "run" 0 2 wsAvg 0) ∧
     (∀ w ∈ columnWrites TARGET_HEADERS "run" 0 2 wsAvg 0,
       w.col = offset 0 (TARGET_HEADERS.indexOf "Average") 2) ∧
     (∀ r : Nat, get_cell_value wsAvg (r : Int) ((0 : Nat) : Int) true
         (CellValue.str ERROR_VALUE_FOR_INPUT)
       = PyResult.ok (coerceCell (wsAvg.cells r 0) true
           (CellValue.str ERROR_VALUE_FOR_INPUT))) ∧
     (offset 0 (TARGET_HEADERS.indexOf AVERAGE_LABEL) 2 = 0 ∧
      offset 1 (TARGET_HEADERS.indexOf AVERAGE_LABEL) 2 = 1 ∧
      offset 0 (TARGET_HEADERS.indexOf STD_LABEL) 2 = 4 ∧
      offset 1 (TARGET_HEADERS.indexOf STD_LABEL) 2 = 5) ∧
     coerceCell (CellValue.str "#DIV/0!") true (CellValue.str ERROR_VALUE_FOR_INPUT)
       = CellValue.str "NA()") :=
  ⟨⟨by decide, by decide, by decide⟩,
   c7_transfer TARGET_HEADERS "run" 0 2 wsAvg 0 "Average" (by decide) (by decide) (by decide)⟩

end Toolkit
